import Mathlib

/-!
Verification development for the NFT-orderbook indexer: a shallow embedding
of the order-lifecycle engine (event ingestion, bulk cancels, reorg fixes,
maker-update workers, order intake, token-set ids, proxy cache) together
with theorems settling the specification claims against the embedded code.
-/

set_option maxRecDepth 4000

/-! ## Token-set id generation (src/orders/utils.ts) -/

/-- The `HashZero` constant from ethersproject: 32 zero bytes, hex encoded. -/
def HashZero : String :=
  "0x0000000000000000000000000000000000000000000000000000000000000000"

/-- The `AddressZero` constant from ethersproject. -/
def AddressZero : String := "0x0000000000000000000000000000000000000000"

/-- Attribute selector accompanying a token-list order
(`{ collection, key, value }` in the source). -/
structure AttrSel where
  collection : String
  key : String
  value : String
deriving DecidableEq

/-- The label JSON attached to a token set.  We keep the exact shape the
source builds (`kind` plus the kind-specific data fields). -/
inductive TokenSetLabel where
  | token (contract tokenId : String)
  | collection (collection : String)
  | attrLabel (collection key value : String)
deriving DecidableEq

/-- Token-set descriptor returned by the three generators in
`src/orders/utils.ts` (`id`, `label`, `labelHash`). -/
structure TokenSetInfo where
  id : String
  label : TokenSetLabel
  labelHash : String
deriving DecidableEq

/-- `generateTokenInfo` from `src/orders/utils.ts`: id is
`token:{contract}:{tokenId}`, label hash is the default `HashZero`. -/
def generateTokenInfo (contract tokenId : String) : TokenSetInfo :=
  { id := "token:" ++ contract ++ ":" ++ tokenId
    label := TokenSetLabel.token contract tokenId
    labelHash := HashZero }

/-- `generateCollectionInfo` from `src/orders/utils.ts`: with a token-id
range the id is `range:{contract}:{lo}:{hi}`, otherwise `contract:{contract}`;
the label hash is the default `HashZero` in both cases. -/
def generateCollectionInfo (collection contract : String)
    (tokenIdRange : Option (String × String)) : TokenSetInfo :=
  match tokenIdRange with
  | some r =>
      { id := "range:" ++ contract ++ ":" ++ r.1 ++ ":" ++ r.2
        label := TokenSetLabel.collection collection
        labelHash := HashZero }
  | none =>
      { id := "contract:" ++ contract
        label := TokenSetLabel.collection collection
        labelHash := HashZero }

/-- `generateAttributeInfo` from `src/orders/utils.ts`: id is
`list:{merkleRoot}` and the label hash is the sha-256 of the
stable-stringified label (both `crypto.createHash("sha256")` and
`json-stable-stringify` are external libraries, passed here as the
function parameters `sha256hex` and `stringifyLabel`). -/
def generateAttributeInfo (sha256hex : String → String)
    (stringifyLabel : TokenSetLabel → String)
    (a : AttrSel) (merkleRoot : String) : TokenSetInfo :=
  { id := "list:" ++ merkleRoot
    label := TokenSetLabel.attrLabel a.collection a.key a.value
    labelHash :=
      "0x" ++ sha256hex (stringifyLabel (TokenSetLabel.attrLabel a.collection a.key a.value)) }

/-! ## Bulk-cancel ingestion (src/sync/onchain/events/common/bulk-cancels.ts)

The old (pre-rewrite) schema is used by this part of the code base: the
`orders` table has a single `status` column whose live states are named
`valid` (the spec's `fillable`) and `no-balance`. -/

/-- `BaseParams` from `src/events/parser.ts` (the per-log base fields). -/
structure BaseParams where
  address : String
  block : Nat
  blockHash : String
  txHash : String
  logIndex : Nat
deriving DecidableEq

/-- `BulkCancelEvent` from `bulk-cancels.ts`. -/
structure BulkCancelEvent where
  maker : String
  minNonce : Nat
  baseParams : BaseParams
deriving DecidableEq

/-- A row of the `bulk_cancel_events` table
(migration `1645109976210_bulk-cancels.ts`). -/
structure BulkCancelRow where
  maker : String
  min_nonce : Nat
  address : String
  block : Nat
  block_hash : String
  tx_hash : String
  log_index : Nat
deriving DecidableEq

/-- The values row built from a `BulkCancelEvent` in `addBulkCancelEvents`. -/
def bulkCancelEventToRow (e : BulkCancelEvent) : BulkCancelRow :=
  { maker := e.maker
    min_nonce := e.minNonce
    address := e.baseParams.address
    block := e.baseParams.block
    block_hash := e.baseParams.blockHash
    tx_hash := e.baseParams.txHash
    log_index := e.baseParams.logIndex }

/-- Primary key of `bulk_cancel_events` as declared by the migration
(`bulk_cancel_events_pk`): `(tx_hash, log_index)` - note it does NOT
include `block_hash`. -/
def bulkCancelPk (r : BulkCancelRow) : String × Nat :=
  (r.tx_hash, r.log_index)

/-- Full `(block_hash, tx_hash, log_index)` triple of a bulk-cancel row. -/
def bulkCancelTriple (r : BulkCancelRow) : String × String × Nat :=
  (r.block_hash, r.tx_hash, r.log_index)

/-- A row of the old-schema `orders` table, restricted to the columns the
bulk-cancel statement touches (`hash`, `kind`, `maker`, `nonce`, `status`). -/
structure OrderRow where
  hash : String
  kind : String
  maker : String
  nonce : Nat
  status : String
deriving DecidableEq

/-- Database state seen by `addBulkCancelEvents`. -/
structure BulkCancelDb where
  bulk_cancel_events : List BulkCancelRow
  orders : List OrderRow
deriving DecidableEq

/-- Column list of the `returning` clause of the `x` CTE in the SQL
statement built by `addBulkCancelEvents` (the source writes
`returning "min_nonce"`). -/
def bulkCancelCteReturnCols : List String := ["min_nonce"]

/-- Columns of the CTE `x` that the UPDATE part of the same statement
references (`"x"."maker"` and `"x"."min_nonce"` in the source). -/
def bulkCancelUpdateXRefs : List String := ["maker", "min_nonce"]

/-- Errors raised by the modelled SQL engine. -/
inductive SqlError where
  | undefinedColumn (rel col : String)
deriving DecidableEq

/-- Insert one row into `bulk_cancel_events` honouring
`on conflict do nothing` over the declared primary key
`(tx_hash, log_index)`; also reports whether the row was inserted
(inserted rows are the ones a `returning` clause yields). -/
def insertBulkCancelRow (t : List BulkCancelRow) (r : BulkCancelRow) :
    List BulkCancelRow × Bool :=
  if t.any (fun r0 => bulkCancelPk r0 = bulkCancelPk r) then (t, false)
  else (t ++ [r], true)

/-- Insert a batch of rows, keeping the list of rows actually inserted. -/
def insertBulkCancelRows (t : List BulkCancelRow) (rs : List BulkCancelRow) :
    List BulkCancelRow × List BulkCancelRow :=
  match rs with
  | [] => (t, [])
  | r :: rest =>
      let (t1, ins) := insertBulkCancelRow t r
      let (t2, inserted) := insertBulkCancelRows t1 rest
      (t2, (if ins then [r] else []) ++ inserted)

/-- The table after a batch insert (first component of
`insertBulkCancelRows`). -/
def bulkCancelInsert (t : List BulkCancelRow) (rs : List BulkCancelRow) :
    List BulkCancelRow :=
  (insertBulkCancelRows t rs).1

/-- The UPDATE half of the bulk-cancel statement, as it would execute if the
CTE provided the referenced columns: set `status = 'cancelled'` on every
`orders` row joined against an inserted CTE row `x` with
`kind = orderKind`, `maker = x.maker`, `nonce < x.min_nonce` and
`status` in `valid` / `no-balance`; return the hashes of updated rows. -/
def bulkCancelUpdateOrders (orderKind : String) (orders : List OrderRow)
    (xRows : List BulkCancelRow) : List OrderRow × List String :=
  let hit : OrderRow → Bool := fun o =>
    o.kind == orderKind &&
      (o.status == "valid" || o.status == "no-balance") &&
      xRows.any (fun x => o.maker == x.maker && o.nonce < x.min_nonce)
  ( orders.map (fun o => if hit o then { o with status := "cancelled" } else o),
    (orders.filter hit).map (fun o => o.hash) )

/-- `addBulkCancelEvents` from `bulk-cancels.ts`.  With no events the
function builds no query and returns `[]`.  Otherwise it runs the single
SQL statement; the statement is only executable if every column of the CTE
`x` referenced by the UPDATE is actually provided by the CTE's `returning`
list -- otherwise Postgres rejects the whole statement with an
undefined-column error and no part of it (insert included) takes effect. -/
def addBulkCancelEvents (orderKind : String) (db : BulkCancelDb)
    (events : List BulkCancelEvent) :
    Except SqlError (BulkCancelDb × List String) :=
  if events.isEmpty then Except.ok (db, [])
  else
    match bulkCancelUpdateXRefs.find? (fun c => !(bulkCancelCteReturnCols.contains c)) with
    | some c => Except.error (SqlError.undefinedColumn "x" c)
    | none =>
        let rows := events.map bulkCancelEventToRow
        let (tbl, inserted) := insertBulkCancelRows db.bulk_cancel_events rows
        let (orders1, hashes) := bulkCancelUpdateOrders orderKind db.orders inserted
        Except.ok ({ bulk_cancel_events := tbl, orders := orders1 }, hashes)

/-! ## NFT approval events (same file, `addNftApprovalEvents`) -/

/-- A row of the `nft_approval_events` table (migration in
`src/unnamed/part_004`). -/
structure NftApprovalRow where
  owner : String
  operator : String
  approved : Bool
  address : String
  block : Nat
  block_hash : String
  tx_hash : String
  log_index : Nat
deriving DecidableEq

/-- Primary key of `nft_approval_events` as declared by the migration
(`nft_approval_events_pk`): `(block_hash, tx_hash, log_index)`. -/
def nftApprovalPk (r : NftApprovalRow) : String × String × Nat :=
  (r.block_hash, r.tx_hash, r.log_index)

/-- One `on conflict do nothing` insert into `nft_approval_events`. -/
def insertNftApprovalRow (t : List NftApprovalRow) (r : NftApprovalRow) :
    List NftApprovalRow :=
  if t.any (fun r0 => nftApprovalPk r0 = nftApprovalPk r) then t else t ++ [r]

/-- `addNftApprovalEvents` (the batched insert, conflict-skipping). -/
def addNftApprovalEvents (t : List NftApprovalRow) (rs : List NftApprovalRow) :
    List NftApprovalRow :=
  rs.foldl insertNftApprovalRow t

/-- `n`-fold re-delivery of the same batch to `bulk_cancel_events`. -/
def bulkCancelReplay (t : List BulkCancelRow) (rs : List BulkCancelRow) :
    Nat → List BulkCancelRow
  | 0 => t
  | n + 1 => bulkCancelInsert (bulkCancelReplay t rs n) rs

/-- `n`-fold re-delivery of the same batch to `nft_approval_events`. -/
def nftApprovalReplay (t : List NftApprovalRow) (rs : List NftApprovalRow) :
    Nat → List NftApprovalRow
  | 0 => t
  | n + 1 => addNftApprovalEvents (nftApprovalReplay t rs n) rs

/-! ## Reorg fix callbacks (src/sync/onchain/events/&#x2e;&#x2e;./index.ts)

The wyvern-v2.3 source writes `cancel_events`, `fill_events` and
`bulk_cancel_events`; the erc1155 source writes `nft_approval_events` and
`nft_transfer_events`.  Only `removeNftApprovalEvents` is present under
`src/`; the other three remove functions live in files missing from the
drop and are modelled from the spec. -/

/-- Modelled from the spec: a row of the `cancel_events` table (the file
`src/events/common/cancels.ts` is missing from the drop); per the spec each
event row carries its `(blockHash, txHash, logIndex)` key, and cancel rows
carry the hash of the cancelled order. -/
structure CancelRow where
  order_hash : String
  block_hash : String
  tx_hash : String
  log_index : Nat
deriving DecidableEq

/-- Modelled from the spec: a row of the `fill_events` table (the file
`src/events/common/fills.ts` is missing from the drop). -/
structure FillRow where
  buy_hash : String
  sell_hash : String
  block_hash : String
  tx_hash : String
  log_index : Nat
deriving DecidableEq

/-- Modelled from the spec: a row of the `nft_transfer_events` table (the
file `src/events/common/nft-transfers.ts` is missing from the drop). -/
structure NftTransferRow where
  from_addr : String
  to_addr : String
  token_id : String
  amount : Nat
  block_hash : String
  tx_hash : String
  log_index : Nat
deriving DecidableEq

/-- The event tables written by the wyvern-v2.3 and erc1155 sources. -/
structure EventDb where
  cancel_events : List CancelRow
  fill_events : List FillRow
  bulk_cancel_events : List BulkCancelRow
  nft_approval_events : List NftApprovalRow
  nft_transfer_events : List NftTransferRow
deriving DecidableEq

/-- `removeNftApprovalEvents` from `bulk-cancels.ts` (src):
`delete from "nft_approval_events" where "block_hash" = $/blockHash/`. -/
def removeNftApprovalEvents (t : List NftApprovalRow) (blockHash : String) :
    List NftApprovalRow :=
  t.filter (fun r => !(r.block_hash == blockHash))

/-- Modelled from the spec: `removeCancelEvents` (missing
`src/events/common/cancels.ts`) deletes the cancel-event rows with the
given block hash, exactly like the in-src `removeNftApprovalEvents`. -/
def removeCancelEvents (t : List CancelRow) (blockHash : String) :
    List CancelRow :=
  t.filter (fun r => !(r.block_hash == blockHash))

/-- Modelled from the spec: `removeFillEvents` (missing
`src/events/common/fills.ts`) deletes the fill-event rows with the given
block hash. -/
def removeFillEvents (t : List FillRow) (blockHash : String) :
    List FillRow :=
  t.filter (fun r => !(r.block_hash == blockHash))

/-- Modelled from the spec: `removeNftTransferEvents` (missing
`src/events/common/nft-transfers.ts`) deletes the transfer-event rows with
the given block hash. -/
def removeNftTransferEvents (t : List NftTransferRow) (blockHash : String) :
    List NftTransferRow :=
  t.filter (fun r => !(r.block_hash == blockHash))

/-- A hash-update job (`HashInfo` in the source). -/
structure HashInfo where
  context : String
  hash : String
deriving DecidableEq

/-- `fixCallback` of the wyvern-v2.3 event source
(`src/sync/onchain/events/wyvern-v2.3/index.ts`): it calls
`removeCancelEvents` and `removeFillEvents` only, and enqueues nothing.
The second component is the list of hash-update jobs enqueued. -/
def wyvernV23FixCallback (db : EventDb) (blockHash : String) :
    EventDb × List HashInfo :=
  ( { db with
        cancel_events := removeCancelEvents db.cancel_events blockHash
        fill_events := removeFillEvents db.fill_events blockHash },
    [] )

/-- `fixCallback` of the erc1155 event source
(`src/sync/onchain/events/erc1155/index.ts`): it calls
`removeNftApprovalEvents` and `removeNftTransferEvents`, and enqueues
nothing. -/
def erc1155FixCallback (db : EventDb) (blockHash : String) :
    EventDb × List HashInfo :=
  ( { db with
        nft_approval_events := removeNftApprovalEvents db.nft_approval_events blockHash
        nft_transfer_events := removeNftTransferEvents db.nft_transfer_events blockHash },
    [] )

/-! ## Maker-update worker (src/unnamed/part_002, `order-updates-by-maker`)

This part of the code base uses the rewritten schema: orders are keyed by
`id` and carry `fillability_status` / `approval_status`. -/

/-- Order fillability status (`order_fillability_status_t`). -/
inductive FillStatus where
  | fillable
  | noBalance
  | cancelled
  | filled
  | expired
deriving DecidableEq

/-- A row of the rewritten `orders` table, restricted to the columns the
sell-balance handler touches.  `validUntil` models
`nullif(upper(valid_between), 'infinity')` (`none` = infinity) and
`expiration` the `expiration` column (`none` = infinity). -/
structure MOrder where
  id : String
  kind : String
  side : String
  maker : String
  token_set_id : String
  fillability_status : FillStatus
  quantity_remaining : Nat
  validUntil : Option Nat
  expiration : Option Nat
deriving DecidableEq

/-- A row of the `nft_balances` projection. -/
structure NftBalance where
  contract : String
  token_id : String
  owner : String
  amount : Nat
deriving DecidableEq

/-- A row of `token_sets_tokens`. -/
structure TokenSetToken where
  token_set_id : String
  contract : String
  token_id : String
deriving DecidableEq

/-- Database state seen by the maker-update worker. -/
structure MakerDb where
  orders : List MOrder
  nft_balances : List NftBalance
  token_sets_tokens : List TokenSetToken
deriving DecidableEq

/-- Lookup of `nft_balances.amount` for `(contract, token_id, owner)`
(the table's key). -/
def nftBalanceLookup (db : MakerDb) (contract tokenId owner : String) :
    Option Nat :=
  (db.nft_balances.find? (fun b =>
    b.contract == contract && b.token_id == tokenId && b.owner == owner)).map
    (fun b => b.amount)

/-- Whether `token_sets_tokens` contains `(tokenSetId, contract, tokenId)`. -/
def tokenSetHas (db : MakerDb) (tokenSetId contract tokenId : String) : Bool :=
  db.token_sets_tokens.any (fun t =>
    t.token_set_id == tokenSetId && t.contract == contract && t.token_id == tokenId)

/-- The WHERE part of the sell-balance SELECT that only looks at the order
row itself: maker, side `sell`, live fillability, token-set membership of
the traded token. -/
def sellBalanceWhere (db : MakerDb) (maker contract tokenId : String)
    (o : MOrder) : Bool :=
  o.maker == maker && o.side == "sell" &&
    (o.fillability_status == FillStatus.fillable ||
      o.fillability_status == FillStatus.noBalance) &&
    tokenSetHas db o.token_set_id contract tokenId

/-- The rows produced by the sell-balance SELECT: each examined order
together with the joined `nft_balances.amount` (the inner join drops
orders whose maker has no balance row for the token). -/
def sellBalanceExamined (db : MakerDb) (maker contract tokenId : String) :
    List (MOrder × Nat) :=
  db.orders.filterMap (fun o =>
    if sellBalanceWhere db maker contract tokenId o then
      (nftBalanceLookup db contract tokenId o.maker).map (fun a => (o, a))
    else none)

/-- `new_status` computed by the SELECT:
`nft_balances.amount >= orders.quantity_remaining ? fillable : no-balance`. -/
def sellBalanceNewStatus (oa : MOrder × Nat) : FillStatus :=
  if oa.1.quantity_remaining ≤ oa.2 then FillStatus.fillable
  else FillStatus.noBalance

/-- `expiration` computed by the SELECT: `upper(valid_between)` when
fillable, the trigger's transaction timestamp otherwise. -/
def sellBalanceNewExpiration (ts : Nat) (oa : MOrder × Nat) : Option Nat :=
  if oa.1.quantity_remaining ≤ oa.2 then oa.1.validUntil else some ts

/-- One entry of the VALUES table fed to the UPDATE:
`(id, fillability_status, expiration)`. -/
structure UpdateValue where
  id : String
  fillability_status : FillStatus
  expiration : Option Nat
deriving DecidableEq

/-- The VALUES rows built by the sell-balance handler: keep only orders
whose status changed, drop escrowed kinds (`foundation`, `cryptopunks`),
and rewrite an X2Y2 order newly derived `no-balance` to `cancelled`. -/
def sellBalanceValues (db : MakerDb) (maker contract tokenId : String)
    (ts : Nat) : List UpdateValue :=
  ((((sellBalanceExamined db maker contract tokenId).filter
      (fun oa => !(oa.1.fillability_status == sellBalanceNewStatus oa))).filter
      (fun oa => !(oa.1.kind == "foundation") && !(oa.1.kind == "cryptopunks"))).map
      (fun oa =>
        if oa.1.kind == "x2y2" && sellBalanceNewStatus oa == FillStatus.noBalance then
          { id := oa.1.id
            fillability_status := FillStatus.cancelled
            expiration := sellBalanceNewExpiration ts oa }
        else
          { id := oa.1.id
            fillability_status := sellBalanceNewStatus oa
            expiration := sellBalanceNewExpiration ts oa }))

/-- `UPDATE orders SET ... FROM (VALUES ...) x WHERE orders.id = x.id`. -/
def applyUpdateValues (orders : List MOrder) (values : List UpdateValue) :
    List MOrder :=
  orders.map (fun o =>
    match values.find? (fun v => v.id == o.id) with
    | some v =>
        { o with
            fillability_status := v.fillability_status
            expiration := v.expiration }
    | none => o)

/-- The sell-balance branch of the maker-update worker: run the SELECT,
update the changed orders, and enqueue a hash-update (`by-id`) job for
every examined order.  The second component is the list of enqueued order
ids. -/
def runSellBalance (db : MakerDb) (maker contract tokenId : String)
    (ts : Nat) : MakerDb × List String :=
  let examined := sellBalanceExamined db maker contract tokenId
  let values := sellBalanceValues db maker contract tokenId ts
  ( { db with orders := applyUpdateValues db.orders values },
    examined.map (fun oa => oa.1.id) )

/-! ## Maker-update enqueue filter (src/unnamed/part_002, `addToQueue`) -/

/-- A maker-update job payload (`MakerInfo`), with the fields the enqueue
filter looks at. -/
structure MakerInfo where
  context : String
  maker : String
  dataKind : String
deriving DecidableEq

/-- A queued bullmq job as built by `addToQueue`: `name` is the maker,
`data` the payload, `jobId` the deduplication context. -/
structure QueuedJob where
  name : String
  data : MakerInfo
  jobId : String
deriving DecidableEq

/-- `addToQueue` from the maker-update queue module: drop entries whose
maker is `AddressZero`, then enqueue one job per remaining entry. -/
def addToQueue (makerInfos : List MakerInfo) : List QueuedJob :=
  (makerInfos.filter (fun i => !(i.maker == AddressZero))).map
    (fun i => { name := i.maker, data := i, jobId := i.context })

/-! ## Order intake: saveOrders (src/unnamed/part_005, wyvern-v2.3/save.ts) -/

/-- The wyvern-v2.3 SDK order kinds `saveOrders` dispatches on. -/
inductive WKind where
  | erc721SingleToken
  | erc721SingleTokenV2
  | erc1155SingleToken
  | erc1155SingleTokenV2
  | erc721TokenRange
  | erc1155TokenRange
  | erc721ContractWide
  | erc1155ContractWide
  | erc721TokenList
  | erc1155TokenList
  | other
deriving DecidableEq

/-- The result of the SDK's `order.getInfo()` (trusted library): the target
contract plus the kind-specific optional fields. -/
structure SdkInfo where
  contract : String
  tokenId : Option String
  startTokenId : Option String
  endTokenId : Option String
  merkleRoot : Option String
deriving DecidableEq

/-- The order params `saveOrders` reads.  `side` is the raw numeric side
(0 = buy, 1 = sell); prices and fees are the SDK's integer values. -/
structure WParams where
  kind : WKind
  side : Nat
  basePrice : Nat
  makerRelayerFee : Nat
  takerRelayerFee : Nat
  feeRecipient : String
  maker : String
  listingTime : Nat
  expirationTime : Nat
  nonce : Nat
deriving DecidableEq

/-- A signed SDK order as `saveOrders` consumes it: its params, the result
of `getInfo()` and the SDK-computed `prefixHash()`. -/
structure WOrder where
  params : WParams
  info : Option SdkInfo
  hash : String
deriving DecidableEq

/-- `OrderInfo` from `src/orders/wyvern-v2.3/index.ts`. -/
structure WOrderInfo where
  order : WOrder
  attr : Option AttrSel
  source : Option String
deriving DecidableEq

/-- `OrderMetadata` as built by `extractOrderMetadata`. -/
structure OrderMetadata where
  setKind : String
  contract : String
  tokenId : Option String
  tokenIdRange : Option (Option String × Option String)
  merkleRoot : Option String
deriving DecidableEq

/-- `extractOrderMetadata` from the save module: `undefined` when
`getInfo()` gives nothing or the kind is unrecognized; otherwise the
token-set selector for the order's kind. -/
def extractOrderMetadata (o : WOrder) : Option OrderMetadata :=
  match o.info with
  | none => none
  | some info =>
      match o.params.kind with
      | WKind.erc721SingleToken
      | WKind.erc721SingleTokenV2
      | WKind.erc1155SingleToken
      | WKind.erc1155SingleTokenV2 =>
          some { setKind := "token", contract := info.contract,
                 tokenId := info.tokenId, tokenIdRange := none, merkleRoot := none }
      | WKind.erc721TokenRange
      | WKind.erc1155TokenRange =>
          some { setKind := "collection", contract := info.contract,
                 tokenId := none,
                 tokenIdRange := some (info.startTokenId, info.endTokenId),
                 merkleRoot := none }
      | WKind.erc721ContractWide
      | WKind.erc1155ContractWide =>
          some { setKind := "collection", contract := info.contract,
                 tokenId := none, tokenIdRange := none, merkleRoot := none }
      | WKind.erc721TokenList
      | WKind.erc1155TokenList =>
          some { setKind := "attribute", contract := info.contract,
                 tokenId := none, tokenIdRange := none,
                 merkleRoot := info.merkleRoot }
      | WKind.other => none

/-- JavaScript template-literal rendering of a possibly-undefined string
(an absent field prints as the string `undefined`). -/
def jsStr (s : Option String) : String :=
  match s with
  | some v => v
  | none => "undefined"

/-- A `collections` row, restricted to the columns `saveOrders` reads. -/
structure CollectionRow where
  id : String
  token_set_id : Option String
deriving DecidableEq

/-- An `attributes` row, restricted to the columns `saveOrders` reads. -/
structure AttributeRow where
  collection_id : String
  key : String
  value : String
  contract : String
  token_id : String
deriving DecidableEq

/-- The database and external-library environment `saveOrders` runs in:
the `collections` and `attributes` tables, the royalty-recipient lookup
(the `collections` x `tokens` join keyed by contract), and the SDK's
`generateMerkleTree(...).getHexRoot()` plus the crypto/stringify helpers
used by `generateAttributeInfo`. -/
structure SaveEnv where
  collections : List CollectionRow
  attrRows : List AttributeRow
  royaltyRecipient : String → Option String
  merkleRootOf : List String → String
  sha256hex : String → String
  stringifyLabel : TokenSetLabel → String

/-- Collection lookup by canonical token-set id
(`where "c"."token_set_id" = $/tokenSetId/`). -/
def collectionByTokenSetId (env : SaveEnv) (tokenSetId : String) :
    Option CollectionRow :=
  env.collections.find? (fun c => c.token_set_id == some tokenSetId)

/-- Collection lookup by id (`where "c"."id" = $/collection/`). -/
def collectionById (env : SaveEnv) (id : String) : Option CollectionRow :=
  env.collections.find? (fun c => c.id == id)

/-- The attribute rows matching `(collection, key, value)`. -/
def matchingAttrTokens (env : SaveEnv) (a : AttrSel) : List AttributeRow :=
  env.attrRows.filter (fun r =>
    r.collection_id == a.collection && r.key == a.key && r.value == a.value)

/-- Token-set resolution for one order: the `switch (orderMetadata.kind)`
of `saveOrders`.  `none` models every `break` that leaves `tokenSetInfo`
undefined. -/
def resolveTokenSet (env : SaveEnv) (oi : WOrderInfo) (md : OrderMetadata) :
    Option TokenSetInfo :=
  if md.setKind == "token" then
    some (generateTokenInfo md.contract (jsStr md.tokenId))
  else if md.setKind == "collection" then
    let tokenSetId :=
      match md.tokenIdRange with
      | some r => "range:" ++ md.contract ++ ":" ++ jsStr r.1 ++ ":" ++ jsStr r.2
      | none => "contract:" ++ md.contract
    match collectionByTokenSetId env tokenSetId with
    | some c =>
        some (generateCollectionInfo c.id md.contract
          (match md.tokenIdRange with
           | some r => some (jsStr r.1, jsStr r.2)
           | none => none))
    | none => none
  else if md.setKind == "attribute" then
    match oi.attr with
    | none => none
    | some a =>
        match collectionById env a.collection with
        | none => none
        | some c =>
            if c.token_set_id == none then none
            else
              let tokens := matchingAttrTokens env a
              if tokens.isEmpty then none
              else if !(tokens.all (fun t => t.contract == md.contract)) then none
              else
                let root := env.merkleRootOf (tokens.map (fun t => t.token_id))
                if !(md.merkleRoot == some root) then none
                else some (generateAttributeInfo env.sha256hex env.stringifyLabel a root)
  else none

/-- One royalty entry of the stored `royalty_info` JSON. -/
structure RoyaltyPart where
  recipient : String
  bps : Int
deriving DecidableEq

/-- The `orders` row built by `saveOrders` (columns the claims speak
about). -/
structure SavedOrderRow where
  hash : String
  side : String
  token_set_id : String
  token_set_label_hash : String
  maker : String
  price : Nat
  value : Int
  source_id : String
  source_bps : Nat
  royalty_info : Option (List RoyaltyPart)
  nonce : Nat
deriving DecidableEq

/-- Outcome of processing one order inside `saveOrders`. -/
inductive SaveOutcome where
  | invalid (reason : String)
  | valid (row : SavedOrderRow)
deriving DecidableEq

/-- The OpenSea fee-recipient address hard-coded in `saveOrders`. -/
def openSeaFeeRecipient : String := "0x5b3256965e7c3cf26e11fcaf296dfc8807c01073"

/-- The per-order body of `saveOrders`: metadata extraction, token-set
resolution, value computation (buy value is price net of the taker relayer
fee, with BigNumber truncated division), fee attribution and royalty
attribution, ending in the `orders` upsert row or an invalid reason. -/
def processOrder (env : SaveEnv) (oi : WOrderInfo) : SaveOutcome :=
  match extractOrderMetadata oi.order with
  | none => SaveOutcome.invalid "Order is invalid"
  | some md =>
      match resolveTokenSet env oi md with
      | none => SaveOutcome.invalid "Order has no matching token set"
      | some tsi =>
          let p := oi.order.params
          let side := if p.side == 0 then "buy" else "sell"
          let value : Int :=
            if p.side == 0 then
              (p.basePrice : Int) - ((p.basePrice : Int) * (p.takerRelayerFee : Int)) / 10000
            else (p.basePrice : Int)
          let feeBps := max p.makerRelayerFee p.takerRelayerFee
          let sourceId :=
            if p.feeRecipient == openSeaFeeRecipient then openSeaFeeRecipient
            else (match oi.source with | some s => s | none => AddressZero)
          let sourceBps :=
            if p.feeRecipient == openSeaFeeRecipient then 250 else feeBps
          let royaltyInfo :=
            match env.royaltyRecipient md.contract with
            | some recipient =>
                if (feeBps : Int) - (sourceBps : Int) > 0 then
                  some [{ recipient := recipient,
                          bps := (feeBps : Int) - (sourceBps : Int) }]
                else none
            | none => none
          SaveOutcome.valid
            { hash := oi.order.hash
              side := side
              token_set_id := tsi.id
              token_set_label_hash := tsi.labelHash
              maker := p.maker
              price := p.basePrice
              value := value
              source_id := sourceId
              source_bps := sourceBps
              royalty_info := royaltyInfo
              nonce := p.nonce }

/-- The accumulated result of `saveOrders`: the valid / invalid split plus
the `orders` upsert rows pushed to the query batch (one per valid order;
an invalid order is skipped with `continue` before its insert is built). -/
structure SaveResult where
  valid : List WOrderInfo
  invalid : List (WOrderInfo × String)
  ordersRows : List SavedOrderRow
deriving DecidableEq

/-- `saveOrders`: process each order in turn, accumulating the valid and
invalid lists and the `orders` rows written. -/
def saveOrders (env : SaveEnv) (ois : List WOrderInfo) : SaveResult :=
  match ois with
  | [] => { valid := [], invalid := [], ordersRows := [] }
  | oi :: rest =>
      let r := saveOrders env rest
      match processOrder env oi with
      | SaveOutcome.invalid reason =>
          { r with invalid := (oi, reason) :: r.invalid }
      | SaveOutcome.valid row =>
          { r with valid := oi :: r.valid, ordersRows := row :: r.ordersRows }

/-! ## Proxy cache (src/unnamed/part_006, `getProxy`) -/

/-- The `wyvern_proxies` table: rows `(owner, proxy)` with `owner` as
primary key (`wyvern_proxies_pk`). -/
structure ProxyDb where
  wyvern_proxies : List (String × String)
deriving DecidableEq

/-- Result of the on-chain `ProxyRegistry.getProxy` SDK call: either the
returned address or a thrown error (RPC failure etc.). -/
inductive RegistryResult where
  | ok (proxy : String)
  | err
deriving DecidableEq

/-- Lowercasing as `String.prototype.toLowerCase` does on addresses. -/
def jsToLower (s : String) : String := String.mk (s.data.map Char.toLower)

/-- Cached proxy lookup
(`select "wp"."proxy" from "wyvern_proxies" where "wp"."owner" = ...`). -/
def proxyLookup (db : ProxyDb) (owner : String) : Option String :=
  (db.wyvern_proxies.find? (fun p => p.1 == owner)).map (fun p => p.2)

/-- `getProxy` from the proxy-cache module.  The entire body runs inside
`try ... catch`, so every thrown error (registry RPC failure, or the
primary-key conflict when inserting over an existing `owner` row) results
in `undefined` (`none`); a JS falsy check (`if (!proxy)`) guards the cache
hit, so an empty-string cache entry falls through to the registry. -/
def getProxy (registry : String → RegistryResult) (db : ProxyDb)
    (owner : String) : Option String × ProxyDb :=
  match proxyLookup db owner with
  | some cached =>
      if !(cached == "") then (some cached, db)
      else
        match registry owner with
        | RegistryResult.err => (none, db)
        | RegistryResult.ok p =>
            let p1 := jsToLower p
            if p1 == AddressZero then (none, db)
            else
              -- the insert hits the `owner` primary key and throws;
              -- the catch-all returns undefined
              (none, db)
  | none =>
      match registry owner with
      | RegistryResult.err => (none, db)
      | RegistryResult.ok p =>
          let p1 := jsToLower p
          if p1 == AddressZero then (none, db)
          else
            (some p1, { wyvern_proxies := db.wyvern_proxies ++ [(owner, p1)] })

/-! ## Generic conflict-skipping insert (shared semantics of the
`on conflict do nothing` event inserts) -/

/-- Generic single-row `on conflict do nothing` insert keyed by `key`. -/
def conflictSkipInsert {α κ : Type} [DecidableEq κ] (key : α → κ)
    (t : List α) (r : α) : List α :=
  if t.any (fun r0 => key r0 = key r) then t else t ++ [r]

/-- Generic batched `on conflict do nothing` insert keyed by `key`. -/
def conflictSkipBatch {α κ : Type} [DecidableEq κ] (key : α → κ)
    (t : List α) (rs : List α) : List α :=
  rs.foldl (conflictSkipInsert key) t

/-! ## Theorems -/

theorem conflictSkipBatch_cons {α κ : Type} [DecidableEq κ] (key : α → κ)
    (t : List α) (r : α) (rs : List α) :
    conflictSkipBatch key t (r :: rs) =
      conflictSkipBatch key (conflictSkipInsert key t r) rs := rfl

theorem bulkCancelInsert_eq_generic (t rs : List BulkCancelRow) :
    bulkCancelInsert t rs = conflictSkipBatch bulkCancelPk t rs := by
  induction rs generalizing t with
  | nil => rfl
  | cons r rest ih =>
      show (insertBulkCancelRows t (r :: rest)).1 = _
      rw [conflictSkipBatch_cons]
      have h1 : (insertBulkCancelRow t r).1 = conflictSkipInsert bulkCancelPk t r := by
        unfold insertBulkCancelRow conflictSkipInsert
        split <;> rfl
      calc (insertBulkCancelRows t (r :: rest)).1
          = (insertBulkCancelRows (insertBulkCancelRow t r).1 rest).1 := rfl
        _ = conflictSkipBatch bulkCancelPk (insertBulkCancelRow t r).1 rest := ih _
        _ = conflictSkipBatch bulkCancelPk (conflictSkipInsert bulkCancelPk t r) rest := by
            rw [h1]

theorem addNftApprovalEvents_eq_generic (t rs : List NftApprovalRow) :
    addNftApprovalEvents t rs = conflictSkipBatch nftApprovalPk t rs := by
  induction rs generalizing t with
  | nil => rfl
  | cons r rest ih =>
      show List.foldl _ _ (r :: rest) = _
      rw [List.foldl_cons, conflictSkipBatch_cons]
      have h1 : insertNftApprovalRow t r = conflictSkipInsert nftApprovalPk t r := by
        unfold insertNftApprovalRow conflictSkipInsert
        split <;> rfl
      rw [h1]
      exact ih _

theorem conflictSkipInsert_key_mem {α κ : Type} [DecidableEq κ] (key : α → κ)
    (t : List α) (r : α) {a : κ} (h : a ∈ t.map key) :
    a ∈ (conflictSkipInsert key t r).map key := by
  unfold conflictSkipInsert
  split
  · exact h
  · rw [List.map_append]
    exact List.mem_append_left _ h

theorem conflictSkipInsert_self_key_mem {α κ : Type} [DecidableEq κ]
    (key : α → κ) (t : List α) (r : α) :
    key r ∈ (conflictSkipInsert key t r).map key := by
  unfold conflictSkipInsert
  split
  · next h =>
      rcases List.any_eq_true.mp h with ⟨r0, hr0, hk⟩
      rw [← of_decide_eq_true hk]
      exact List.mem_map_of_mem key hr0
  · rw [List.map_append]
    exact List.mem_append_right _ (by simp)

theorem conflictSkipBatch_key_mem {α κ : Type} [DecidableEq κ] (key : α → κ)
    (t : List α) (rs : List α) {a : κ} (h : a ∈ t.map key) :
    a ∈ (conflictSkipBatch key t rs).map key := by
  induction rs generalizing t with
  | nil => exact h
  | cons r rest ih =>
      rw [conflictSkipBatch_cons]
      exact ih _ (conflictSkipInsert_key_mem key t r h)

theorem conflictSkipBatch_keys_present {α κ : Type} [DecidableEq κ]
    (key : α → κ) (t : List α) (rs : List α) :
    ∀ r ∈ rs, key r ∈ (conflictSkipBatch key t rs).map key := by
  induction rs generalizing t with
  | nil => intro r h; cases h
  | cons r0 rest ih =>
      intro r h
      rw [conflictSkipBatch_cons]
      rcases List.mem_cons.mp h with h | h
      · subst h
        exact conflictSkipBatch_key_mem key _ rest
          (conflictSkipInsert_self_key_mem key t r)
      · exact ih _ r h

theorem conflictSkipBatch_noop {α κ : Type} [DecidableEq κ] (key : α → κ)
    (t : List α) (rs : List α) (h : ∀ r ∈ rs, key r ∈ t.map key) :
    conflictSkipBatch key t rs = t := by
  induction rs with
  | nil => rfl
  | cons r rest ih =>
      rw [conflictSkipBatch_cons]
      have hr : key r ∈ t.map key := h r (List.mem_cons_self r rest)
      have h1 : conflictSkipInsert key t r = t := by
        unfold conflictSkipInsert
        have : t.any (fun r0 => key r0 = key r) = true := by
          rcases List.mem_map.mp hr with ⟨r0, hr0, hk⟩
          exact List.any_eq_true.mpr ⟨r0, hr0, decide_eq_true hk⟩
        rw [this]
        rfl
      rw [h1]
      exact ih (fun r hr => h r (List.mem_cons_of_mem _ hr))

theorem conflictSkipBatch_idem {α κ : Type} [DecidableEq κ] (key : α → κ)
    (t : List α) (rs : List α) :
    conflictSkipBatch key (conflictSkipBatch key t rs) rs =
      conflictSkipBatch key t rs :=
  conflictSkipBatch_noop key _ rs (conflictSkipBatch_keys_present key t rs)

theorem conflictSkipInsert_nodup {α κ : Type} [DecidableEq κ] (key : α → κ)
    (t : List α) (r : α) (h : (t.map key).Nodup) :
    ((conflictSkipInsert key t r).map key).Nodup := by
  unfold conflictSkipInsert
  split
  · exact h
  · next hna =>
      rw [List.map_append]
      rw [List.nodup_append]
      refine ⟨h, List.nodup_singleton _, ?_⟩
      intro a ha hb
      simp only [List.map_cons, List.map_nil, List.mem_singleton] at hb
      subst hb
      rcases List.mem_map.mp ha with ⟨r0, hr0, hk⟩
      exact hna (List.any_eq_true.mpr ⟨r0, hr0, decide_eq_true hk⟩)

theorem conflictSkipBatch_nodup {α κ : Type} [DecidableEq κ] (key : α → κ)
    (t : List α) (rs : List α) (h : (t.map key).Nodup) :
    ((conflictSkipBatch key t rs).map key).Nodup := by
  induction rs generalizing t with
  | nil => exact h
  | cons r rest ih =>
      rw [conflictSkipBatch_cons]
      exact ih _ (conflictSkipInsert_nodup key t r h)

/-! ### Claim C1 -/

/-- Old-schema order hit by the failing input: a live wyvern-v2.3 order
whose nonce is below the incremented nonce. -/
def c1Order : OrderRow :=
  { hash := "0xdead", kind := "wyvern-v2.3", maker := "0xmaker",
    nonce := 3, status := "valid" }

/-- Failing-input database: one live order, empty event table. -/
def c1Db : BulkCancelDb := { bulk_cancel_events := [], orders := [c1Order] }

/-- Failing input: `NonceIncremented(0xmaker, 5)`. -/
def c1Event : BulkCancelEvent :=
  { maker := "0xmaker", minNonce := 5,
    baseParams := { address := "0xex", block := 100, blockHash := "0xb",
                    txHash := "0xt", logIndex := 0 } }

/-- Claim C1 (code bug): processing `NonceIncremented(m, n)` is supposed to
atomically insert the event row, cancel all of `m`'s wyvern-v2.3 orders
with `nonce < n` and return their hashes.  The statement the code builds
cannot run: its UPDATE references `"x"."maker"`, but the CTE `x` only
returns `"min_nonce"`, so Postgres rejects the whole statement with an
undefined-column error -- nothing is inserted, no order is cancelled and
no hash is returned, even on an input squarely inside the claim (a live
`valid` order of the same maker with `nonce 3 < 5`). -/
theorem addBulkCancelEvents_rejected_undefined_column :
    addBulkCancelEvents "wyvern-v2.3" c1Db [c1Event]
      = Except.error (SqlError.undefinedColumn "x" "maker")
  ∧ c1Order.kind = "wyvern-v2.3"
  ∧ c1Order.maker = c1Event.maker
  ∧ c1Order.nonce < c1Event.minNonce
  ∧ c1Order.status = "valid" :=
  ⟨rfl, rfl, rfl, by decide, rfl⟩

/-! ### Claim C2 -/

/-- Claim C2: for both event tables in `src/` reach (`bulk_cancel_events`,
`nft_approval_events`), the `(blockHash, txHash, logIndex)` triple is a
unique key of the rows (for `bulk_cancel_events` this follows from its
declared primary key `(tx_hash, log_index)`, a subkey of the triple; for
`nft_approval_events` the primary key is the triple itself), the
`on conflict do nothing` inserts preserve key uniqueness, and re-delivering
a batch any number of additional times leaves the table exactly as after a
single delivery. -/
theorem eventRows_unique_key_and_redelivery_noop :
    (∀ t : List BulkCancelRow,
      (t.map bulkCancelPk).Nodup → (t.map bulkCancelTriple).Nodup)
  ∧ (∀ t rs : List BulkCancelRow, (t.map bulkCancelPk).Nodup →
      ((bulkCancelInsert t rs).map bulkCancelPk).Nodup)
  ∧ (∀ (t rs : List BulkCancelRow) (n : Nat),
      bulkCancelReplay t rs (n + 1) = bulkCancelInsert t rs)
  ∧ (∀ t rs : List NftApprovalRow, (t.map nftApprovalPk).Nodup →
      ((addNftApprovalEvents t rs).map nftApprovalPk).Nodup)
  ∧ (∀ (t rs : List NftApprovalRow) (n : Nat),
      nftApprovalReplay t rs (n + 1) = addNftApprovalEvents t rs) := by
  refine ⟨?_, ?_, ?_, ?_, ?_⟩
  · intro t h
    have hm : (t.map bulkCancelTriple).map (fun x => x.2) = t.map bulkCancelPk := by
      rw [List.map_map]
      rfl
    have h2 : ((t.map bulkCancelTriple).map (fun x => x.2)).Nodup := by
      rw [hm]
      exact h
    exact h2.of_map
  · intro t rs h
    rw [bulkCancelInsert_eq_generic]
    exact conflictSkipBatch_nodup bulkCancelPk t rs h
  · intro t rs n
    induction n with
    | zero => rfl
    | succ n ih =>
        show bulkCancelInsert (bulkCancelReplay t rs (n + 1)) rs = _
        rw [ih, bulkCancelInsert_eq_generic, bulkCancelInsert_eq_generic,
          conflictSkipBatch_idem]
  · intro t rs h
    rw [addNftApprovalEvents_eq_generic]
    exact conflictSkipBatch_nodup nftApprovalPk t rs h
  · intro t rs n
    induction n with
    | zero => rfl
    | succ n ih =>
        show addNftApprovalEvents (nftApprovalReplay t rs (n + 1)) rs = _
        rw [ih, addNftApprovalEvents_eq_generic, addNftApprovalEvents_eq_generic,
          conflictSkipBatch_idem]

/-- Concrete bulk-cancel row for the C2 witness. -/
def c2bc : BulkCancelRow :=
  { maker := "0xm", min_nonce := 5, address := "0xa", block := 1,
    block_hash := "0xb", tx_hash := "0xt", log_index := 0 }

/-- Concrete nft-approval row for the C2 witness. -/
def c2na : NftApprovalRow :=
  { owner := "0xo", operator := "0xp", approved := true, address := "0xa",
    block := 1, block_hash := "0xb", tx_hash := "0xt", log_index := 0 }

/-- Witness for C2 at concrete rows. -/
theorem eventRows_unique_key_and_redelivery_noop_witness :
    ([c2bc].map bulkCancelTriple).Nodup
  ∧ ((bulkCancelInsert [c2bc] [c2bc]).map bulkCancelPk).Nodup
  ∧ bulkCancelReplay [] [c2bc] 3 = bulkCancelInsert [] [c2bc]
  ∧ ((addNftApprovalEvents [c2na] [c2na]).map nftApprovalPk).Nodup
  ∧ nftApprovalReplay [] [c2na] 2 = addNftApprovalEvents [] [c2na] :=
  ⟨eventRows_unique_key_and_redelivery_noop.1 [c2bc] (by decide),
   eventRows_unique_key_and_redelivery_noop.2.1 [c2bc] [c2bc] (by decide),
   eventRows_unique_key_and_redelivery_noop.2.2.1 [] [c2bc] 2,
   eventRows_unique_key_and_redelivery_noop.2.2.2.1 [c2na] [c2na] (by decide),
   eventRows_unique_key_and_redelivery_noop.2.2.2.2 [] [c2na] 1⟩

/-! ### Claim C3 -/

/-- A cancel row at the reorged block (it derived order `0xorder`'s state). -/
def c3cancel : CancelRow :=
  { order_hash := "0xorder", block_hash := "0xb", tx_hash := "0xt1", log_index := 0 }

/-- A bulk-cancel row at the reorged block. -/
def c3bulk : BulkCancelRow :=
  { maker := "0xm", min_nonce := 7, address := "0xa", block := 5,
    block_hash := "0xb", tx_hash := "0xt2", log_index := 1 }

/-- Event-table state before the reorg fix. -/
def c3db : EventDb :=
  { cancel_events := [c3cancel], fill_events := [],
    bulk_cancel_events := [c3bulk], nft_approval_events := [],
    nft_transfer_events := [] }

/-- Counterexample to C3 as stated: after `fixCallback("0xb")` of the
wyvern-v2.3 source, the `bulk_cancel_events` row with that block hash -- a
row of an event table this source writes -- is still present, and no
hash-update job is enqueued even though the deleted cancel row had derived
order `0xorder`'s state. -/
theorem wyvernFixCallback_counterexample :
    c3bulk.block_hash = "0xb"
  ∧ (wyvernV23FixCallback c3db "0xb").1.bulk_cancel_events = [c3bulk]
  ∧ (wyvernV23FixCallback c3db "0xb").1.cancel_events = []
  ∧ (wyvernV23FixCallback c3db "0xb").2 = [] :=
  ⟨rfl, rfl, rfl, rfl⟩

/-- Claim C3 (amended): `fixCallback(B)` of the wyvern-v2.3 source deletes
exactly the cancel-event and fill-event rows with block hash `B` (rows of
other block hashes stay), leaves `bulk_cancel_events` and the erc1155
tables untouched, and enqueues no hash-update jobs; `fixCallback(B)` of the
erc1155 source deletes exactly the nft-approval and nft-transfer rows with
block hash `B`, leaves the other tables untouched, and enqueues no jobs. -/
theorem fixCallback_deletes_by_blockHash_only (db : EventDb) (B : String) :
    (wyvernV23FixCallback db B).1.cancel_events
        = db.cancel_events.filter (fun r => !(r.block_hash == B))
  ∧ (wyvernV23FixCallback db B).1.fill_events
        = db.fill_events.filter (fun r => !(r.block_hash == B))
  ∧ (wyvernV23FixCallback db B).1.bulk_cancel_events = db.bulk_cancel_events
  ∧ (wyvernV23FixCallback db B).1.nft_approval_events = db.nft_approval_events
  ∧ (wyvernV23FixCallback db B).1.nft_transfer_events = db.nft_transfer_events
  ∧ (wyvernV23FixCallback db B).2 = []
  ∧ (erc1155FixCallback db B).1.nft_approval_events
        = db.nft_approval_events.filter (fun r => !(r.block_hash == B))
  ∧ (erc1155FixCallback db B).1.nft_transfer_events
        = db.nft_transfer_events.filter (fun r => !(r.block_hash == B))
  ∧ (erc1155FixCallback db B).1.cancel_events = db.cancel_events
  ∧ (erc1155FixCallback db B).1.fill_events = db.fill_events
  ∧ (erc1155FixCallback db B).1.bulk_cancel_events = db.bulk_cancel_events
  ∧ (erc1155FixCallback db B).2 = [] :=
  ⟨rfl, rfl, rfl, rfl, rfl, rfl, rfl, rfl, rfl, rfl, rfl, rfl⟩

/-! ### Claim C8 -/

/-- Claim C8: the token-set id generators are pure functions of the
selector, producing `token:{contract}:{tokenId}`,
`range:{contract}:{lo}:{hi}`, `contract:{contract}` and
`list:{merkleRoot}` respectively; the label hash is `HashZero` for the
three non-list kinds and `0x` plus the sha-256 of the stable-stringified
label for list sets; identical selectors yield identical token-set ids. -/
theorem tokenSetId_deterministic :
    (∀ c t, (generateTokenInfo c t).id = "token:" ++ c ++ ":" ++ t
      ∧ (generateTokenInfo c t).labelHash = HashZero)
  ∧ (∀ coll c lo hi, (generateCollectionInfo coll c (some (lo, hi))).id
        = "range:" ++ c ++ ":" ++ lo ++ ":" ++ hi
      ∧ (generateCollectionInfo coll c (some (lo, hi))).labelHash = HashZero)
  ∧ (∀ coll c, (generateCollectionInfo coll c none).id = "contract:" ++ c
      ∧ (generateCollectionInfo coll c none).labelHash = HashZero)
  ∧ (∀ sha st a root, (generateAttributeInfo sha st a root).id = "list:" ++ root
      ∧ (generateAttributeInfo sha st a root).labelHash
          = "0x" ++ sha (st (TokenSetLabel.attrLabel a.collection a.key a.value)))
  ∧ (∀ c t c1 t1, c = c1 → t = t1 →
      (generateTokenInfo c t).id = (generateTokenInfo c1 t1).id)
  ∧ (∀ coll coll1 c c1 r r1, c = c1 → r = r1 →
      (generateCollectionInfo coll c r).id = (generateCollectionInfo coll1 c1 r1).id)
  ∧ (∀ sha sha1 st st1 a a1 root root1, root = root1 →
      (generateAttributeInfo sha st a root).id
        = (generateAttributeInfo sha1 st1 a1 root1).id) := by
  refine ⟨fun c t => ⟨rfl, rfl⟩, fun coll c lo hi => ⟨rfl, rfl⟩,
    fun coll c => ⟨rfl, rfl⟩, fun sha st a root => ⟨rfl, rfl⟩,
    ?_, ?_, ?_⟩
  · intro c t c1 t1 hc ht
    subst hc; subst ht; rfl
  · intro coll coll1 c c1 r r1 hc hr
    subst hc; subst hr
    cases r <;> rfl
  · intro sha sha1 st st1 a a1 root root1 hr
    subst hr; rfl

/-- Witness for C8 at concrete selectors. -/
theorem tokenSetId_deterministic_witness :
    ((generateTokenInfo "0xc" "1").id = "token:" ++ "0xc" ++ ":" ++ "1"
      ∧ (generateTokenInfo "0xc" "1").labelHash = HashZero)
  ∧ (generateCollectionInfo "coll" "0xc" none).id
      = (generateCollectionInfo "other" "0xc" none).id :=
  ⟨tokenSetId_deterministic.1 "0xc" "1",
   tokenSetId_deterministic.2.2.2.2.2.1 "coll" "other" "0xc" "0xc" none none rfl rfl⟩

/-! ### Claim C9 -/

/-- Claim C9: `addToQueue` enqueues exactly the maker-update entries whose
maker differs from `AddressZero`, in order; a payload is enqueued iff it
was submitted and its maker is non-zero, so zero-address transfer legs
never trigger a maker recheck. -/
theorem addToQueue_drops_zero_maker :
    (∀ infos : List MakerInfo,
      (addToQueue infos).map (fun j => j.data)
        = infos.filter (fun i => !(i.maker == AddressZero)))
  ∧ (∀ (infos : List MakerInfo) (i : MakerInfo),
      (∃ j, j ∈ addToQueue infos ∧ j.data = i)
        ↔ (i ∈ infos ∧ i.maker ≠ AddressZero)) := by
  constructor
  · intro infos
    unfold addToQueue
    rw [List.map_map]
    exact List.map_id' _
  · intro infos i
    constructor
    · rintro ⟨j, hj, rfl⟩
      unfold addToQueue at hj
      rcases List.mem_map.mp hj with ⟨i0, hi0, rfl⟩
      have h := List.mem_filter.mp hi0
      refine ⟨h.1, ?_⟩
      have h2 := h.2
      simp only [Bool.not_eq_true', beq_eq_false_iff_ne, ne_eq] at h2
      exact h2
    · rintro ⟨hi, hne⟩
      refine ⟨{ name := i.maker, data := i, jobId := i.context }, ?_, rfl⟩
      unfold addToQueue
      refine List.mem_map.mpr ⟨i, List.mem_filter.mpr ⟨hi, ?_⟩, rfl⟩
      simp only [Bool.not_eq_true', beq_eq_false_iff_ne, ne_eq]
      exact hne

/-! ### Claim C10 -/

theorem proxyLookup_mem {db : ProxyDb} {owner p : String}
    (h : proxyLookup db owner = some p) :
    ∃ e ∈ db.wyvern_proxies, e.2 = p := by
  unfold proxyLookup at h
  cases hf : db.wyvern_proxies.find? (fun q => q.1 == owner) with
  | none => rw [hf] at h; cases h
  | some e =>
      rw [hf] at h
      exact ⟨e, List.mem_of_find?_eq_some hf, by simpa using h⟩

/-- Claim C10: `getProxy` never returns the zero address and never throws
(every thrown error is caught and surfaces as `none`): it returns the
cached proxy when a non-empty one exists in `wyvern_proxies`; on a cache
miss it queries the registry, returns `none` when the registry reports
`AddressZero` or any error occurs, and otherwise caches and returns the
lower-cased non-zero proxy; the cache stays free of zero addresses. -/
theorem getProxy_spec (registry : String → RegistryResult) (db : ProxyDb)
    (owner : String)
    (hz : ∀ p ∈ db.wyvern_proxies, p.2 ≠ AddressZero) :
    (getProxy registry db owner).1 ≠ some AddressZero
  ∧ (∀ p, proxyLookup db owner = some p → p ≠ "" →
      getProxy registry db owner = (some p, db))
  ∧ (proxyLookup db owner = none → registry owner = RegistryResult.err →
      getProxy registry db owner = (none, db))
  ∧ (∀ p, proxyLookup db owner = none → registry owner = RegistryResult.ok p →
      jsToLower p = AddressZero → getProxy registry db owner = (none, db))
  ∧ (∀ p, proxyLookup db owner = none → registry owner = RegistryResult.ok p →
      jsToLower p ≠ AddressZero →
      getProxy registry db owner
        = (some (jsToLower p),
           { wyvern_proxies := db.wyvern_proxies ++ [(owner, jsToLower p)] }))
  ∧ (∀ q ∈ (getProxy registry db owner).2.wyvern_proxies, q.2 ≠ AddressZero) := by
  refine ⟨?_, ?_, ?_, ?_, ?_, ?_⟩
  · cases h1 : proxyLookup db owner with
    | none =>
        cases h2 : registry owner with
        | err => simp [getProxy, h1, h2]
        | ok p =>
            simp only [getProxy, h1, h2]
            split
            · simp
            · next h3 =>
                simp only [beq_iff_eq] at h3
                simp [h3]
    | some cached =>
        have hc : cached ≠ AddressZero := by
          rcases proxyLookup_mem h1 with ⟨e, he, hep⟩
          rw [← hep]
          exact hz e he
        by_cases h4 : cached = ""
        · subst h4
          cases h2 : registry owner with
          | err => simp [getProxy, h1, h2]
          | ok p => simp [getProxy, h1, h2]
        · have hb : (cached == "") = false := beq_eq_false_iff_ne.mpr h4
          simp [getProxy, h1, hb, hc]
  · intro p hp hne
    simp only [getProxy, hp]
    have hb : (p == "") = false := beq_eq_false_iff_ne.mpr hne
    rw [hb]
    rfl
  · intro hp hr
    simp only [getProxy, hp, hr]
  · intro p hp hr h3
    simp only [getProxy, hp, hr]
    have hb : (jsToLower p == AddressZero) = true := beq_iff_eq.mpr h3
    rw [hb]
    rfl
  · intro p hp hr h3
    simp only [getProxy, hp, hr]
    have hb : (jsToLower p == AddressZero) = false := beq_eq_false_iff_ne.mpr h3
    rw [hb]
    rfl
  · cases h1 : proxyLookup db owner with
    | none =>
        cases h2 : registry owner with
        | err =>
            simp only [getProxy, h1, h2]
            exact hz
        | ok p =>
            simp only [getProxy, h1, h2]
            split
            · exact hz
            · next h3 =>
                simp only [beq_iff_eq] at h3
                intro q hq
                simp only [List.mem_append, List.mem_singleton] at hq
                rcases hq with hq | hq
                · exact hz q hq
                · rw [hq]
                  exact h3
    | some cached =>
        by_cases h4 : cached = ""
        · subst h4
          cases h2 : registry owner with
          | err =>
              simp only [getProxy, h1, h2]
              simpa using hz
          | ok p =>
              simp only [getProxy, h1, h2]
              split <;> simpa using hz
        · have hb : (cached == "") = false := beq_eq_false_iff_ne.mpr h4
          simp only [getProxy, h1, hb]
          simpa using hz

/-- Concrete registry for the C10 witness: knows owner `0xcc`. -/
def c10reg : String → RegistryResult :=
  fun o => if o == "0xcc" then RegistryResult.ok "0xDD" else RegistryResult.err

/-- Concrete proxy cache for the C10 witness. -/
def c10db : ProxyDb := { wyvern_proxies := [("0xaa", "0xbb")] }

/-- Witness for C10: a cache hit returns the cached proxy untouched, and a
cache miss with a non-zero registry answer caches and returns the
lower-cased proxy. -/
theorem getProxy_spec_witness :
    getProxy c10reg c10db "0xaa" = (some "0xbb", c10db)
  ∧ getProxy c10reg c10db "0xcc"
      = (some (jsToLower "0xDD"),
         { wyvern_proxies := c10db.wyvern_proxies ++ [("0xcc", jsToLower "0xDD")] }) :=
  ⟨(getProxy_spec c10reg c10db "0xaa" (by decide)).2.1 "0xbb" (by decide) (by decide),
   (getProxy_spec c10reg c10db "0xcc" (by decide)).2.2.2.2.1 "0xDD" (by decide)
     (by decide) (by decide)⟩

/-! ### Claims C5 and C6 (saveOrders arithmetic and fee attribution) -/

theorem mem_saveOrders_rows (env : SaveEnv) (ois : List WOrderInfo)
    (oi : WOrderInfo) (row : SavedOrderRow) (hmem : oi ∈ ois)
    (hrow : processOrder env oi = SaveOutcome.valid row) :
    row ∈ (saveOrders env ois).ordersRows := by
  induction ois with
  | nil => cases hmem
  | cons o rest ih =>
      rcases List.mem_cons.mp hmem with h | h
      · subst h
        simp only [saveOrders, hrow]
        exact List.mem_cons_self _ _
      · have hr := ih h
        simp only [saveOrders]
        cases hpo : processOrder env o with
        | invalid reason => simpa using hr
        | valid row0 =>
            simp only []
            exact List.mem_cons_of_mem _ hr

theorem mem_saveOrders_invalid (env : SaveEnv) (ois : List WOrderInfo)
    (oi : WOrderInfo) (reason : String) (hmem : oi ∈ ois)
    (hrow : processOrder env oi = SaveOutcome.invalid reason) :
    (oi, reason) ∈ (saveOrders env ois).invalid := by
  induction ois with
  | nil => cases hmem
  | cons o rest ih =>
      rcases List.mem_cons.mp hmem with h | h
      · subst h
        simp only [saveOrders, hrow]
        exact List.mem_cons_self _ _
      · have hr := ih h
        simp only [saveOrders]
        cases hpo : processOrder env o with
        | invalid reason0 =>
            simp only []
            exact List.mem_cons_of_mem _ hr
        | valid row0 => simpa using hr

/-- Claim C5: every order accepted by `saveOrders` is stored with
`value = basePrice - basePrice * takerRelayerFee / 10000` (exact integer
arithmetic, truncated division) when it is a buy order (`side = 0`), and
with `value = basePrice` when it is a sell order; the stored price is the
base price. -/
theorem saveOrders_value_formula (env : SaveEnv) (ois : List WOrderInfo)
    (oi : WOrderInfo) (row : SavedOrderRow) (hmem : oi ∈ ois)
    (hrow : processOrder env oi = SaveOutcome.valid row) :
    row ∈ (saveOrders env ois).ordersRows
  ∧ row.value =
      (if oi.order.params.side == 0 then
        (oi.order.params.basePrice : Int)
          - ((oi.order.params.basePrice : Int)
              * (oi.order.params.takerRelayerFee : Int)) / 10000
      else (oi.order.params.basePrice : Int))
  ∧ row.price = oi.order.params.basePrice := by
  refine ⟨mem_saveOrders_rows env ois oi row hmem hrow, ?_⟩
  unfold processOrder at hrow
  split at hrow
  · cases hrow
  · split at hrow
    · cases hrow
    · cases hrow
      exact ⟨rfl, rfl⟩

/-- Claim C6: for every order accepted by `saveOrders`, if the fee
recipient is the hard-coded OpenSea address then the source is that
address with 250 bps, otherwise the source is `orderInfo.source` (or the
zero address) with `bps = max(makerRelayerFee, takerRelayerFee)`; the
royalty info is a single entry paying the collection's royalty recipient
`feeBps - source_bps` exactly when that difference is positive and a
royalty recipient exists, and is absent otherwise. -/
theorem saveOrders_fee_attribution (env : SaveEnv) (ois : List WOrderInfo)
    (oi : WOrderInfo) (row : SavedOrderRow) (md : OrderMetadata)
    (hmem : oi ∈ ois)
    (hmd : extractOrderMetadata oi.order = some md)
    (hrow : processOrder env oi = SaveOutcome.valid row) :
    row ∈ (saveOrders env ois).ordersRows
  ∧ row.source_id =
      (if oi.order.params.feeRecipient == openSeaFeeRecipient then
        openSeaFeeRecipient
      else (match oi.source with | some s => s | none => AddressZero))
  ∧ row.source_bps =
      (if oi.order.params.feeRecipient == openSeaFeeRecipient then 250
       else max oi.order.params.makerRelayerFee oi.order.params.takerRelayerFee)
  ∧ row.royalty_info =
      (match env.royaltyRecipient md.contract with
       | some recipient =>
           if ((max oi.order.params.makerRelayerFee oi.order.params.takerRelayerFee : Nat) : Int)
               - (row.source_bps : Int) > 0 then
             some [{ recipient := recipient,
                     bps := ((max oi.order.params.makerRelayerFee
                         oi.order.params.takerRelayerFee : Nat) : Int)
                       - (row.source_bps : Int) }]
           else none
       | none => none) := by
  refine ⟨mem_saveOrders_rows env ois oi row hmem hrow, ?_⟩
  unfold processOrder at hrow
  split at hrow
  · cases hrow
  · next md0 heq =>
      rw [hmd] at heq
      injection heq with heq
      subst heq
      split at hrow
      · cases hrow
      · cases hrow
        exact ⟨rfl, rfl, rfl⟩

/-- Witness order for C5/C6: an accepted single-token buy order with the
OpenSea fee recipient. -/
def c5oi : WOrderInfo :=
  { order :=
      { params :=
          { kind := WKind.erc721SingleToken, side := 0, basePrice := 1000000,
            makerRelayerFee := 500, takerRelayerFee := 500,
            feeRecipient := openSeaFeeRecipient, maker := "0xmaker",
            listingTime := 0, expirationTime := 0, nonce := 1 }
        info := some { contract := "0xc", tokenId := some "7",
                       startTokenId := none, endTokenId := none,
                       merkleRoot := none }
        hash := "0xhash" }
    attr := none
    source := none }

/-- Witness environment for C5/C6/C7. -/
def c5env : SaveEnv :=
  { collections := [{ id := "coll", token_set_id := some "contract:0xc" }]
    attrRows := [{ collection_id := "coll", key := "k", value := "v",
                   contract := "0xc", token_id := "1" }]
    royaltyRecipient := fun _ => some "0xroyalty"
    merkleRootOf := fun _ => "0xgoodroot"
    sha256hex := fun _ => "deadbeef"
    stringifyLabel := fun _ => "label" }

/-- The row the C5/C6 witness order is stored as. -/
def c5row : SavedOrderRow :=
  { hash := "0xhash", side := "buy", token_set_id := "token:0xc:7",
    token_set_label_hash := HashZero, maker := "0xmaker", price := 1000000,
    value := 950000, source_id := openSeaFeeRecipient, source_bps := 250,
    royalty_info := some [{ recipient := "0xroyalty", bps := 250 }],
    nonce := 1 }

/-- Witness for C5 at the concrete accepted buy order: the stored value is
`1000000 - 1000000 * 500 / 10000 = 950000`. -/
theorem saveOrders_value_formula_witness :
    c5row ∈ (saveOrders c5env [c5oi]).ordersRows
  ∧ c5row.value =
      (if c5oi.order.params.side == 0 then
        (c5oi.order.params.basePrice : Int)
          - ((c5oi.order.params.basePrice : Int)
              * (c5oi.order.params.takerRelayerFee : Int)) / 10000
      else (c5oi.order.params.basePrice : Int))
  ∧ c5row.price = c5oi.order.params.basePrice :=
  saveOrders_value_formula c5env [c5oi] c5oi c5row (List.mem_singleton.mpr rfl)
    (by decide)

/-- The metadata extracted from the C5/C6 witness order. -/
def c5md : OrderMetadata :=
  { setKind := "token", contract := "0xc", tokenId := some "7",
    tokenIdRange := none, merkleRoot := none }

/-- Witness for C6 at the concrete accepted order: OpenSea attribution with
250 source bps and a 250 bps royalty for the collection's recipient. -/
theorem saveOrders_fee_attribution_witness :
    c5row ∈ (saveOrders c5env [c5oi]).ordersRows
  ∧ c5row.source_id =
      (if c5oi.order.params.feeRecipient == openSeaFeeRecipient then
        openSeaFeeRecipient
      else (match c5oi.source with | some s => s | none => AddressZero))
  ∧ c5row.source_bps =
      (if c5oi.order.params.feeRecipient == openSeaFeeRecipient then 250
       else max c5oi.order.params.makerRelayerFee c5oi.order.params.takerRelayerFee)
  ∧ c5row.royalty_info =
      (match c5env.royaltyRecipient c5md.contract with
       | some recipient =>
           if ((max c5oi.order.params.makerRelayerFee c5oi.order.params.takerRelayerFee : Nat) : Int)
               - (c5row.source_bps : Int) > 0 then
             some [{ recipient := recipient,
                     bps := ((max c5oi.order.params.makerRelayerFee
                         c5oi.order.params.takerRelayerFee : Nat) : Int)
                       - (c5row.source_bps : Int) }]
           else none
       | none => none) :=
  saveOrders_fee_attribution c5env [c5oi] c5oi c5row c5md
    (List.mem_singleton.mpr rfl) (by decide) (by decide)

/-! ### Claim C7 (attribute orders with a bad token set are rejected) -/

/-- The claim's rejection conditions for a token-list (attribute) order,
written from the spec's words: no accompanying attribute, no collection
token set, no matching tokens, matching tokens on a different contract
than the order's target, or a rebuilt Merkle root differing from the
order's declared root. -/
def attrOrderFails (env : SaveEnv) (oi : WOrderInfo) (md : OrderMetadata) :
    Prop :=
  oi.attr = none
  ∨ ∃ a, oi.attr = some a ∧
      ( (∀ c, collectionById env a.collection = some c → c.token_set_id = none)
      ∨ matchingAttrTokens env a = []
      ∨ ¬ ((matchingAttrTokens env a).all (fun t => t.contract == md.contract) = true)
      ∨ md.merkleRoot
          ≠ some (env.merkleRootOf ((matchingAttrTokens env a).map (fun t => t.token_id))))

theorem resolveTokenSet_attr_none (env : SaveEnv) (oi : WOrderInfo)
    (md : OrderMetadata) (hk : md.setKind = "attribute")
    (hfail : attrOrderFails env oi md) :
    resolveTokenSet env oi md = none := by
  unfold resolveTokenSet
  rw [hk]
  simp only [show (("attribute" : String) == "token") = false from rfl,
    show (("attribute" : String) == "collection") = false from rfl,
    show (("attribute" : String) == "attribute") = true from rfl,
    Bool.false_eq_true, if_false, if_true]
  split
  · rfl
  · next a ha =>
      rcases hfail with hfail | ⟨a0, ha0, hfail⟩
      · rw [ha] at hfail
        cases hfail
      · rw [ha] at ha0
        injection ha0 with ha0
        subst ha0
        split
        · rfl
        · next c hc =>
            split
            · rfl
            · next hb =>
                simp only [beq_iff_eq] at hb
                split
                · rfl
                · next hne =>
                    split
                    · rfl
                    · next hall =>
                        split
                        · rfl
                        · next hroot =>
                            exfalso
                            simp only [Bool.not_eq_true, Bool.not_eq_false'] at hall hroot
                            rcases hfail with hfail | hfail | hfail | hfail
                            · exact hb (hfail c hc)
                            · exact hne (by rw [hfail]; rfl)
                            · exact hfail hall
                            · simp only [beq_iff_eq] at hroot
                              exact hfail hroot

/-- Claim C7: a token-list (attribute) order whose attribute token set
cannot be validated -- missing attribute, missing collection token set, no
matching tokens, tokens on the wrong contract, or a Merkle-root mismatch --
is returned in the invalid list with reason `Order has no matching token
set`, and no `orders` row is written for it. -/
theorem attributeOrder_rejected (env : SaveEnv) (oi : WOrderInfo)
    (md : OrderMetadata)
    (hmd : extractOrderMetadata oi.order = some md)
    (hk : md.setKind = "attribute")
    (hfail : attrOrderFails env oi md) :
    processOrder env oi = SaveOutcome.invalid "Order has no matching token set"
  ∧ (∀ ois, oi ∈ ois →
      (oi, "Order has no matching token set") ∈ (saveOrders env ois).invalid)
  ∧ (saveOrders env [oi]).ordersRows = [] := by
  have hres : resolveTokenSet env oi md = none :=
    resolveTokenSet_attr_none env oi md hk hfail
  have hpo : processOrder env oi
      = SaveOutcome.invalid "Order has no matching token set" := by
    simp only [processOrder, hmd, hres]
  refine ⟨hpo, ?_, ?_⟩
  · intro ois hmem
    exact mem_saveOrders_invalid env ois oi _ hmem hpo
  · simp [saveOrders, hpo]

/-- Witness order for C7: a token-list order whose declared root `0xbad`
differs from the rebuilt root `0xgoodroot`. -/
def c7oi : WOrderInfo :=
  { order :=
      { params :=
          { kind := WKind.erc721TokenList, side := 1, basePrice := 5,
            makerRelayerFee := 0, takerRelayerFee := 0,
            feeRecipient := "0xfee", maker := "0xmaker",
            listingTime := 0, expirationTime := 0, nonce := 0 }
        info := some { contract := "0xc", tokenId := none,
                       startTokenId := none, endTokenId := none,
                       merkleRoot := some "0xbad" }
        hash := "0xlisthash" }
    attr := some { collection := "coll", key := "k", value := "v" }
    source := none }

/-- The metadata extracted from the C7 witness order. -/
def c7md : OrderMetadata :=
  { setKind := "attribute", contract := "0xc", tokenId := none,
    tokenIdRange := none, merkleRoot := some "0xbad" }

/-- Witness for C7: the mismatched-root order is rejected with the exact
reason and writes no orders row. -/
theorem attributeOrder_rejected_witness :
    processOrder c5env c7oi = SaveOutcome.invalid "Order has no matching token set"
  ∧ (saveOrders c5env [c7oi]).ordersRows = [] :=
  ⟨(attributeOrder_rejected c5env c7oi c7md (by decide) (by decide)
      (Or.inr ⟨{ collection := "coll", key := "k", value := "v" }, rfl,
        Or.inr (Or.inr (Or.inr (by decide)))⟩)).1,
   (attributeOrder_rejected c5env c7oi c7md (by decide) (by decide)
      (Or.inr ⟨{ collection := "coll", key := "k", value := "v" }, rfl,
        Or.inr (Or.inr (Or.inr (by decide)))⟩)).2.2⟩

/-! ### Claim C4 (sell-balance maker update) -/

theorem filterMap_if_eq {α β : Type} (p : α → Bool) (f : α → Option β)
    (g : α → β) (h : ∀ x, f x = if p x then some (g x) else none)
    (l : List α) : l.filterMap f = (l.filter p).map g := by
  induction l with
  | nil => rfl
  | cons a tl ih =>
      cases hp : p a with
      | true =>
          have hfa : f a = some (g a) := by rw [h a, hp]; rfl
          simp [List.filterMap_cons, List.filter_cons, hfa, hp, ih]
      | false =>
          have hfa : f a = none := by rw [h a, hp]; rfl
          simp [List.filterMap_cons, List.filter_cons, hfa, hp, ih]

theorem find?_none_of_key {β : Type} (kOf : β → String) (x : String)
    (L : List β) (h : ∀ v ∈ L, kOf v ≠ x) :
    L.find? (fun v => kOf v == x) = none := by
  apply List.find?_eq_none.mpr
  intro v hv
  simp only [beq_iff_eq]
  exact h v hv

theorem find?_values_by_id (vOf : MOrder → UpdateValue) (q : MOrder → Bool)
    (l : List MOrder) (hk : ∀ x, (vOf x).id = x.id)
    (hnd : (l.map (fun o => o.id)).Nodup) :
    ∀ o ∈ l, ((l.filter q).map vOf).find? (fun v => v.id == o.id)
      = if q o then some (vOf o) else none := by
  induction l with
  | nil => intro o ho; cases ho
  | cons a tl ih =>
      rw [List.map_cons, List.nodup_cons] at hnd
      obtain ⟨hnotin, hnd2⟩ := hnd
      intro o ho
      rcases List.mem_cons.mp ho with rfl | ho2
      · cases hq : q o with
        | true =>
            rw [List.filter_cons_of_pos hq, List.map_cons]
            simp [List.find?_cons, hk o, hq]
        | false =>
            rw [List.filter_cons_of_neg (by rw [hq]; exact Bool.false_ne_true)]
            simp only [Bool.false_eq_true, if_false]
            apply find?_none_of_key
            intro v hv
            rcases List.mem_map.mp hv with ⟨x, hx, rfl⟩
            rw [hk]
            intro heq
            apply hnotin
            rw [← heq]
            exact List.mem_map_of_mem _ (List.mem_of_mem_filter hx)
      · have hne : (a.id == o.id) = false := by
          apply beq_eq_false_iff_ne.mpr
          intro heq
          apply hnotin
          rw [heq]
          exact List.mem_map_of_mem _ ho2
        cases hq : q a with
        | true =>
            rw [List.filter_cons_of_pos hq, List.map_cons]
            rw [show (List.find? (fun v => v.id == o.id)
                (vOf a :: (tl.filter q).map vOf))
                = List.find? (fun v => v.id == o.id) ((tl.filter q).map vOf) from by
              simp [List.find?_cons, hk a, hne]]
            exact ih hnd2 o ho2
        | false =>
            rw [List.filter_cons_of_neg (by rw [hq]; exact Bool.false_ne_true)]
            exact ih hnd2 o ho2

theorem bool_rearrange (w x f c : Bool) :
    (((f && c) && x) && w) = (w && (x && (f && c))) := by
  cases w <;> cases x <;> cases f <;> cases c <;> rfl

/-- The claim's `new_status`: fillable when the maker's nft balance covers
`quantity_remaining`, no-balance otherwise. -/
def claimNewStatus (amt : Nat) (o : MOrder) : FillStatus :=
  if o.quantity_remaining ≤ amt then FillStatus.fillable else FillStatus.noBalance

/-- The composite row-selection predicate the sell-balance pipeline
produces (escrow filter, changed filter and WHERE clause combined). -/
def sellBalanceCondCode (db : MakerDb) (maker contract tokenId : String)
    (amt : Nat) (o : MOrder) : Bool :=
  ((!(o.kind == "foundation") && !(o.kind == "cryptopunks"))
    && !(o.fillability_status == claimNewStatus amt o))
    && sellBalanceWhere db maker contract tokenId o

/-- The VALUES row the handler builds for one changed order. -/
def sellBalanceValueOf (ts amt : Nat) (o : MOrder) : UpdateValue :=
  if o.kind == "x2y2" && (claimNewStatus amt o == FillStatus.noBalance) then
    { id := o.id, fillability_status := FillStatus.cancelled,
      expiration := if o.quantity_remaining ≤ amt then o.validUntil else some ts }
  else
    { id := o.id, fillability_status := claimNewStatus amt o,
      expiration := if o.quantity_remaining ≤ amt then o.validUntil else some ts }

/-- The claim's selection condition, written in the claim's order:
selected by the WHERE clause, status changed, and not an escrowed kind. -/
def sellBalanceCond (db : MakerDb) (maker contract tokenId : String)
    (amt : Nat) (o : MOrder) : Bool :=
  sellBalanceWhere db maker contract tokenId o
    && (!(o.fillability_status == claimNewStatus amt o)
    && (!(o.kind == "foundation") && !(o.kind == "cryptopunks")))

/-- The per-order effect of a sell-balance job as the claim describes it:
selected, changed, non-escrowed orders are re-derived (an x2y2 order newly
`no-balance` becomes `cancelled`), everything else is untouched. -/
def sellBalanceClaimUpdate (db : MakerDb) (maker contract tokenId : String)
    (ts amt : Nat) (o : MOrder) : MOrder :=
  if sellBalanceCond db maker contract tokenId amt o then
    { o with
        fillability_status :=
          if o.kind == "x2y2" && (claimNewStatus amt o == FillStatus.noBalance)
          then FillStatus.cancelled else claimNewStatus amt o
        expiration := if o.quantity_remaining ≤ amt then o.validUntil else some ts }
  else o

/-- Claim C4: given the maker's nft balance row for the traded token, a
sell-balance maker-update job enqueues a hash-update for exactly the
maker's live sell orders whose token set contains the token, and rewrites
the orders table pointwise by the claim's re-derivation rule (fillable
with expiration `upper(valid_between)` when the balance covers
`quantity_remaining`, otherwise no-balance stamped with the trigger
timestamp; escrowed kinds skipped; x2y2 promoted to cancelled on
no-balance; only rows whose status changed are written). -/
theorem sellBalance_rederives_statuses (db : MakerDb)
    (maker contract tokenId : String) (ts amt : Nat)
    (hids : (db.orders.map (fun o => o.id)).Nodup)
    (hbal : nftBalanceLookup db contract tokenId maker = some amt) :
    (runSellBalance db maker contract tokenId ts).2
      = (db.orders.filter (sellBalanceWhere db maker contract tokenId)).map
          (fun o => o.id)
  ∧ (runSellBalance db maker contract tokenId ts).1.orders
      = db.orders.map (sellBalanceClaimUpdate db maker contract tokenId ts amt) := by
  have hex : sellBalanceExamined db maker contract tokenId
      = (db.orders.filter (sellBalanceWhere db maker contract tokenId)).map
          (fun o => (o, amt)) := by
    have hpt : ∀ x : MOrder,
        (if sellBalanceWhere db maker contract tokenId x then
          (nftBalanceLookup db contract tokenId x.maker).map (fun a => (x, a))
        else none)
        = if sellBalanceWhere db maker contract tokenId x then some (x, amt)
          else none := by
      intro x
      cases hW : sellBalanceWhere db maker contract tokenId x with
      | true =>
          have hm : x.maker = maker := by
            unfold sellBalanceWhere at hW
            simp only [Bool.and_eq_true, beq_iff_eq] at hW
            exact hW.1.1.1
          rw [if_pos rfl, if_pos rfl, hm, hbal]
          rfl
      | false => rfl
    exact filterMap_if_eq _ _ _ hpt db.orders
  have hval : sellBalanceValues db maker contract tokenId ts
      = (db.orders.filter (sellBalanceCondCode db maker contract tokenId amt)).map
          (sellBalanceValueOf ts amt) := by
    unfold sellBalanceValues
    rw [hex, List.filter_map, List.filter_map, List.map_map,
      List.filter_filter, List.filter_filter]
    rfl
  constructor
  · show (sellBalanceExamined db maker contract tokenId).map (fun oa => oa.1.id)
        = (db.orders.filter (sellBalanceWhere db maker contract tokenId)).map
            (fun o => o.id)
    rw [hex, List.map_map]
    rfl
  · show applyUpdateValues db.orders (sellBalanceValues db maker contract tokenId ts)
        = db.orders.map (sellBalanceClaimUpdate db maker contract tokenId ts amt)
    unfold applyUpdateValues
    apply List.map_congr_left
    intro o ho
    dsimp only
    rw [hval]
    rw [find?_values_by_id (sellBalanceValueOf ts amt)
      (sellBalanceCondCode db maker contract tokenId amt) db.orders
      (fun x => by unfold sellBalanceValueOf; split <;> rfl) hids o ho]
    have hcond : sellBalanceCondCode db maker contract tokenId amt o
        = sellBalanceCond db maker contract tokenId amt o := by
      unfold sellBalanceCondCode sellBalanceCond
      exact bool_rearrange _ _ _ _
    rw [hcond]
    unfold sellBalanceClaimUpdate
    cases hq : sellBalanceCond db maker contract tokenId amt o with
    | true =>
        unfold sellBalanceValueOf
        cases hx : (o.kind == "x2y2" && (claimNewStatus amt o == FillStatus.noBalance)) with
        | true => rfl
        | false => rfl
    | false => rfl

/-- C4 witness orders: an x2y2 order that loses its balance, an escrowed
foundation order, and an order of an unrelated maker. -/
def c4o1 : MOrder :=
  { id := "o1", kind := "x2y2", side := "sell", maker := "0xm",
    token_set_id := "ts1", fillability_status := FillStatus.fillable,
    quantity_remaining := 1, validUntil := some 500, expiration := some 500 }

/-- C4 witness: escrowed foundation order of the same maker. -/
def c4o2 : MOrder :=
  { id := "o2", kind := "foundation", side := "sell", maker := "0xm",
    token_set_id := "ts1", fillability_status := FillStatus.fillable,
    quantity_remaining := 1, validUntil := some 600, expiration := some 600 }

/-- C4 witness: order of an unrelated maker. -/
def c4o3 : MOrder :=
  { id := "o3", kind := "wyvern-v2.3", side := "sell", maker := "0xother",
    token_set_id := "ts1", fillability_status := FillStatus.fillable,
    quantity_remaining := 1, validUntil := some 700, expiration := some 700 }

/-- C4 witness database: the maker's balance for the traded token is 0. -/
def c4db : MakerDb :=
  { orders := [c4o1, c4o2, c4o3]
    nft_balances := [{ contract := "0xc", token_id := "7", owner := "0xm",
                       amount := 0 }]
    token_sets_tokens := [{ token_set_id := "ts1", contract := "0xc",
                            token_id := "7" }] }

/-- Witness for C4 at the concrete database. -/
theorem sellBalance_rederives_statuses_witness :
    (runSellBalance c4db "0xm" "0xc" "7" 99).2
      = (c4db.orders.filter (sellBalanceWhere c4db "0xm" "0xc" "7")).map
          (fun o => o.id)
  ∧ (runSellBalance c4db "0xm" "0xc" "7" 99).1.orders
      = c4db.orders.map (sellBalanceClaimUpdate c4db "0xm" "0xc" "7" 99 0) :=
  sellBalance_rederives_statuses c4db "0xm" "0xc" "7" 99 0 (by decide) (by decide)
